import Mathlib

/-!
Verification of the InterPrep AI routing / interview core.

Shallow embedding of the Python sources:
  src/agents/coordinator.py   (CoordinatorAgent: route, _clean_response,
                               _fix_json_problems, _recover_json,
                               _fallback_agent_detection, _normalize_agent_name)
  src/agents/interviewer_agent.py (InterviewerAgent: _extract_json,
                               start_interview, get_current_question,
                               evaluate_answer, get_interview_summary,
                               end_interview)
  src/agents/assessor_agent.py (AssessorAgent.assess)
  src/bot/handlers/planning.py (process_plan_details)

Python strings are modelled as `String` / `List Char`; Python `json` values
as the inductive `JVal` with rationals for numbers (the non-standard
`NaN`/`Infinity` extension of Python's parser is not modelled); exceptions
as `Except PyErr`; the external GigaChat completion call as a parameter of
type `LLMResp`.  `str.lower`/`str.upper` are modelled for the ASCII and
Cyrillic ranges actually used by the program.
-/

set_option maxRecDepth 20000
set_option maxHeartbeats 12000000

namespace InterPrep

/-! ## Characters and Python-style string helpers -/

/-- Python `str.lower` restricted to ASCII letters and the Cyrillic block
(А..Я, Ё) — the only cased characters appearing in the program's data. -/
def ruLower (c : Char) : Char :=
  if 65 ≤ c.toNat ∧ c.toNat ≤ 90 then Char.ofNat (c.toNat + 32)
  else if 0x410 ≤ c.toNat ∧ c.toNat ≤ 0x42F then Char.ofNat (c.toNat + 0x20)
  else if c.toNat = 0x401 then Char.ofNat 0x451
  else c

/-- Python `str.upper` restricted to ASCII letters and the Cyrillic block. -/
def ruUpper (c : Char) : Char :=
  if 97 ≤ c.toNat ∧ c.toNat ≤ 122 then Char.ofNat (c.toNat - 32)
  else if 0x430 ≤ c.toNat ∧ c.toNat ≤ 0x44F then Char.ofNat (c.toNat - 0x20)
  else if c.toNat = 0x451 then Char.ofNat 0x401
  else c

def pyLower (s : String) : String := ⟨s.data.map ruLower⟩

def pyUpper (s : String) : String := ⟨s.data.map ruUpper⟩

/-- Python whitespace for `str.strip` and the regex class backslash-s. -/
def isPyWs (c : Char) : Bool :=
  c = ' ' || c = '\t' || c = '\n' || c = '\r' || c.toNat = 11 || c.toNat = 12

/-- `bs.isPrefixOf cs` for char lists, by plain recursion. -/
def isPrefixL : List Char → List Char → Bool
  | [], _ => true
  | _ :: _, [] => false
  | a :: as, b :: bs => a = b && isPrefixL as bs

def isSuffixL (needle cs : List Char) : Bool :=
  isPrefixL needle.reverse cs.reverse

/-- Python `needle in hay` (substring containment). -/
def containsL (needle : List Char) : List Char → Bool
  | [] => isPrefixL needle []
  | c :: rest => isPrefixL needle (c :: rest) || containsL needle rest

def pyContains (hay needle : String) : Bool := containsL needle.data hay.data

/-- The rest of the list after the first occurrence of `needle`
(Python `hay.split(needle)[1]` when a second occurrence may follow). -/
def afterFirstL (needle : List Char) : List Char → Option (List Char)
  | [] => if needle.isEmpty then some [] else none
  | c :: rest =>
    if isPrefixL needle (c :: rest) then some (List.drop (needle.length - 1) rest)
    else afterFirstL needle rest

/-- The prefix before the first occurrence of `needle`
(Python `hay.split(needle)[0]`). -/
def takeUntilL (needle : List Char) : List Char → List Char
  | [] => []
  | c :: rest =>
    if isPrefixL needle (c :: rest) then [] else c :: takeUntilL needle rest

/-- Python `hay.count(needle) >= 2` for a nonempty needle
(non-overlapping occurrences, scanned left to right). -/
def countAtLeast2 (needle cs : List Char) : Bool :=
  match afterFirstL needle cs with
  | some rest => containsL needle rest
  | none => false

def stripEndsL (p : Char → Bool) (cs : List Char) : List Char :=
  ((cs.dropWhile p).reverse.dropWhile p).reverse

/-- Python `str.strip()` (no argument). -/
def stripPyWs (cs : List Char) : List Char := stripEndsL isPyWs cs

def pyStartsWithAny (s : String) (prefixes : List String) : Bool :=
  prefixes.any (fun p => isPrefixL p.data s.data)

def pyTake (n : Nat) (s : String) : String := ⟨s.data.take n⟩

def isDigit (c : Char) : Bool := 48 ≤ c.toNat && c.toNat ≤ 57

def digitsToNat (cs : List Char) : Nat :=
  cs.foldl (fun n c => 10 * n + (c.toNat - 48)) 0

def hexVal (c : Char) : Option Nat :=
  if 48 ≤ c.toNat ∧ c.toNat ≤ 57 then some (c.toNat - 48)
  else if 97 ≤ c.toNat ∧ c.toNat ≤ 102 then some (c.toNat - 87)
  else if 65 ≤ c.toNat ∧ c.toNat ≤ 70 then some (c.toNat - 55)
  else none

/-! ## Python `json` values and `json.loads` -/

/-- A Python value produced by `json.loads`: None, bool, number (modelled as
a rational), str, list, dict (association list in insertion order, later
duplicate keys shadow earlier ones as in Python). -/
inductive JVal where
  | jnull
  | jbool (b : Bool)
  | jnum (q : ℚ)
  | jstr (s : String)
  | jarr (elems : List JVal)
  | jobj (fields : List (String × JVal))

/-- Python dict lookup; with duplicate keys from the parser the last wins. -/
def jlookup (fs : List (String × JVal)) (k : String) : Option JVal :=
  match fs with
  | [] => none
  | (k2, v) :: t =>
    match jlookup t k with
    | some r => some r
    | none => if k2 = k then some v else none

def isJWs (c : Char) : Bool := c = ' ' || c = '\t' || c = '\n' || c = '\r'

def skipJWs (cs : List Char) : List Char := cs.dropWhile isJWs

def escChar (e : Char) : Option Char :=
  if e = '\"' then some '\"'
  else if e = '\\' then some '\\'
  else if e = '/' then some '/'
  else if e = 'b' then some (Char.ofNat 8)
  else if e = 'f' then some (Char.ofNat 12)
  else if e = 'n' then some '\n'
  else if e = 'r' then some '\r'
  else if e = 't' then some '\t'
  else none

/-- Body of a JSON string literal, after the opening quote.  Rejects raw
control characters (Python's strict mode) and unknown escapes. -/
def parseStrBody : Nat → List Char → List Char → Option (String × List Char)
  | 0, _, _ => none
  | fuel + 1, acc, cs =>
    match cs with
    | [] => none
    | c :: rest =>
      if c = '\"' then some (⟨acc.reverse⟩, rest)
      else if c = '\\' then
        match rest with
        | [] => none
        | e :: rest2 =>
          if e = 'u' then
            match rest2 with
            | h1 :: h2 :: h3 :: h4 :: rest3 =>
              match hexVal h1, hexVal h2, hexVal h3, hexVal h4 with
              | some a, some b, some c2, some d =>
                parseStrBody fuel (Char.ofNat (((a * 16 + b) * 16 + c2) * 16 + d) :: acc) rest3
              | _, _, _, _ => none
            | _ => none
          else
            match escChar e with
            | some ch => parseStrBody fuel (ch :: acc) rest2
            | none => none
      else if c.toNat < 32 then none
      else parseStrBody fuel (c :: acc) rest

def expDigits (cs : List Char) : Option (Nat × List Char) :=
  let ds := cs.takeWhile isDigit
  if ds.isEmpty then none else some (digitsToNat ds, cs.dropWhile isDigit)

/-- The optional exponent part: (exponent is negative, exponent, rest). -/
def parseExpPart (cs : List Char) : Option (Bool × Nat × List Char) :=
  match cs with
  | c :: t =>
    if c = 'e' ∨ c = 'E' then
      match t with
      | '+' :: t2 => (expDigits t2).map (fun p => (false, p))
      | '-' :: t2 => (expDigits t2).map (fun p => (true, p))
      | _ => (expDigits t).map (fun p => (false, p))
    else some (false, 0, c :: t)
  | [] => some (false, 0, [])

/-- The rational denoted by sign, integer digits, fraction digits and
exponent.  Built with mkRat and integer arithmetic only (the field
operations of ℚ are irreducible and would block kernel evaluation). -/
def jsonNumToRat (neg : Bool) (ds fs : List Char) (esign : Bool) (e : Nat) : ℚ :=
  let n : ℤ := (digitsToNat ds * 10 ^ fs.length + digitsToNat fs : Nat)
  let n := if neg then -n else n
  if esign then mkRat n (10 ^ fs.length * 10 ^ e)
  else mkRat (n * 10 ^ e) (10 ^ fs.length)

def parseUNum (neg : Bool) (cs : List Char) : Option (ℚ × List Char) :=
  let ds := cs.takeWhile isDigit
  let r1 := cs.dropWhile isDigit
  if ds.isEmpty then none
  else
    match r1 with
    | '.' :: t =>
      let fs := t.takeWhile isDigit
      let r2 := t.dropWhile isDigit
      if fs.isEmpty then none
      else (parseExpPart r2).map (fun p => (jsonNumToRat neg ds fs p.1 p.2.1, p.2.2))
    | _ => (parseExpPart r1).map (fun p => (jsonNumToRat neg ds [] p.1 p.2.1, p.2.2))

def parseNumFrom (cs : List Char) : Option (ℚ × List Char) :=
  match cs with
  | '-' :: t => parseUNum true t
  | _ => parseUNum false cs

mutual

def parseVal : Nat → List Char → Option (JVal × List Char)
  | 0, _ => none
  | fuel + 1, cs =>
    match skipJWs cs with
    | [] => none
    | c :: rest =>
      if c = 'n' then
        match rest with
        | 'u' :: 'l' :: 'l' :: r => some (.jnull, r)
        | _ => none
      else if c = 't' then
        match rest with
        | 'r' :: 'u' :: 'e' :: r => some (.jbool true, r)
        | _ => none
      else if c = 'f' then
        match rest with
        | 'a' :: 'l' :: 's' :: 'e' :: r => some (.jbool false, r)
        | _ => none
      else if c = '\"' then
        match parseStrBody (rest.length + 1) [] rest with
        | some (s, r) => some (.jstr s, r)
        | none => none
      else if c = '\x7b' then
        parseObj fuel (skipJWs rest)
      else if c = '[' then
        parseArr fuel (skipJWs rest)
      else
        match parseNumFrom (c :: rest) with
        | some (q, r) => some (.jnum q, r)
        | none => none

def parseObj : Nat → List Char → Option (JVal × List Char)
  | 0, _ => none
  | fuel + 1, cs =>
    match cs with
    | '\x7d' :: r => some (.jobj [], r)
    | _ => parseMembers fuel cs []

def parseMembers : Nat → List Char → List (String × JVal) → Option (JVal × List Char)
  | 0, _, _ => none
  | fuel + 1, cs, acc =>
    match skipJWs cs with
    | '\"' :: rest =>
      match parseStrBody (rest.length + 1) [] rest with
      | some (k, r1) =>
        match skipJWs r1 with
        | ':' :: r2 =>
          match parseVal fuel r2 with
          | some (v, r3) =>
            match skipJWs r3 with
            | ',' :: r4 => parseMembers fuel r4 (acc ++ [(k, v)])
            | '\x7d' :: r4 => some (.jobj (acc ++ [(k, v)]), r4)
            | _ => none
          | none => none
        | _ => none
      | none => none
    | _ => none

def parseArr : Nat → List Char → Option (JVal × List Char)
  | 0, _ => none
  | fuel + 1, cs =>
    match cs with
    | ']' :: r => some (.jarr [], r)
    | _ => parseElems fuel cs []

def parseElems : Nat → List Char → List JVal → Option (JVal × List Char)
  | 0, _, _ => none
  | fuel + 1, cs, acc =>
    match parseVal fuel cs with
    | some (v, r1) =>
      match skipJWs r1 with
      | ',' :: r2 => parseElems fuel r2 (acc ++ [v])
      | ']' :: r2 => some (.jarr (acc ++ [v]), r2)
      | _ => none
    | none => none

end

/-- Python `json.loads` on a char list: one JSON value, then only
whitespace may remain. -/
def loadsL (cs : List Char) : Option JVal :=
  match parseVal (2 * cs.length + 8) cs with
  | some (v, rest) => if (skipJWs rest).isEmpty then some v else none
  | none => none

def loads (s : String) : Option JVal := loadsL s.data

/-! ## Models of the regular expressions used by the agents -/

/-- Span matched by the greedy DOTALL pattern "first opening brace .. last
closing brace" used in _clean_response, _recover_json and _extract_json:
drop up to the first opening brace, then cut after the last closing brace;
a match needs a closing brace strictly after the opening one. -/
def braceSpanL (cs : List Char) : Option (List Char) :=
  let t := cs.dropWhile (fun c => ¬ c = '\x7b')
  let u := (t.reverse.dropWhile (fun c => ¬ c = '\x7d')).reverse
  if 2 ≤ u.length then some u else none

/-- Same for the bracket pattern used for hint / recommendation lists. -/
def bracketSpanL (cs : List Char) : Option (List Char) :=
  let t := cs.dropWhile (fun c => ¬ c = '[')
  let u := (t.reverse.dropWhile (fun c => ¬ c = ']')).reverse
  if 2 ≤ u.length then some u else none

/-- Case-insensitive literal prefix match, returning the rest. -/
def dropPrefixCI : List Char → List Char → Option (List Char)
  | [], cs => some cs
  | _ :: _, [] => none
  | a :: as, b :: bs => if ruLower a = ruLower b then dropPrefixCI as bs else none

/-- At-position match of the _recover_json field pattern: quoted key
(IGNORECASE), optional whitespace, colon, optional whitespace, then a
quoted nonempty capture of non-quote characters. -/
def strFieldAt (key : List Char) (cs : List Char) : Option String :=
  match dropPrefixCI ('\"' :: (key ++ ['\"'])) cs with
  | none => none
  | some r1 =>
    match r1.dropWhile isPyWs with
    | ':' :: r3 =>
      match r3.dropWhile isPyWs with
      | '\"' :: r5 =>
        let captured := r5.takeWhile (fun c => ¬ c = '\"')
        match r5.dropWhile (fun c => ¬ c = '\"') with
        | '\"' :: _ => if captured.isEmpty then none else some ⟨captured⟩
        | _ => none
      | _ => none
    | _ => none

/-- re.search scan for `strFieldAt` (leftmost match wins). -/
def findStrField (key : List Char) : List Char → Option String
  | [] => none
  | c :: rest =>
    match strFieldAt key (c :: rest) with
    | some v => some v
    | none => findStrField key rest

/-- At-position match of the confidence pattern: quoted key, colon, then a
nonempty greedy capture from the class digits-and-dot. -/
def numFieldAt (key : List Char) (cs : List Char) : Option (List Char) :=
  match dropPrefixCI ('\"' :: (key ++ ['\"'])) cs with
  | none => none
  | some r1 =>
    match r1.dropWhile isPyWs with
    | ':' :: r3 =>
      let r4 := r3.dropWhile isPyWs
      let captured := r4.takeWhile (fun c => isDigit c || c = '.')
      if captured.isEmpty then none else some captured
    | _ => none

def findNumField (key : List Char) : List Char → Option (List Char)
  | [] => none
  | c :: rest =>
    match numFieldAt key (c :: rest) with
    | some v => some v
    | none => findNumField key rest

/-- Python float() on a string drawn from the class digits-and-dot:
at most one dot and at least one digit. -/
def pyFloatDigits (cs : List Char) : Option ℚ :=
  let dots := cs.count '.'
  if dots = 0 then
    if cs.isEmpty then none else some (mkRat (digitsToNat cs) 1)
  else if dots = 1 then
    let ip := cs.takeWhile (fun c => ¬ c = '.')
    let fp := (cs.dropWhile (fun c => ¬ c = '.')).drop 1
    if ip.isEmpty ∧ fp.isEmpty then none
    else some (mkRat (digitsToNat ip * 10 ^ fp.length + digitsToNat fp) (10 ^ fp.length))
  else none

/-! ## Python exceptions, pydantic-style validation, LLM call outcomes -/

/-- The exception kinds the embedded code can raise.  jsonDecode carries the
text whose parse failed, as route's recovery branch re-reads it. -/
inductive PyErr where
  | jsonDecode (text : String)
  | typeError
  | attributeError
  | validationError
  | valueError
  | keyError

/-- Outcome of the external GigaChat chat call: the raw completion text, or
an exception carrying its message. -/
inductive LLMResp where
  | ok (text : String)
  | err (msg : String)

/-- Python dict .get with default; .get on a non-dict raises AttributeError. -/
def pyGetD (v : JVal) (key : String) (dflt : JVal) : Except PyErr JVal :=
  match v with
  | .jobj fs => .ok ((jlookup fs key).getD dflt)
  | _ => .error .attributeError

/-- Python dict [key] indexing; KeyError when absent, TypeError on non-dict
(index failures of other shapes are folded into the same error kind —
every such path ends in the same except handler). -/
def pyIndex (v : JVal) (key : String) : Except PyErr JVal :=
  match v with
  | .jobj fs =>
    match jlookup fs key with
    | some x => .ok x
    | none => .error .keyError
  | _ => .error .typeError

/-- Python str.upper() on a value; AttributeError on non-strings. -/
def pyStrUpper : JVal → Except PyErr String
  | .jstr s => .ok (pyUpper s)
  | _ => .error .attributeError

/-- A value in Python numeric position (min/max arithmetic).  Non-numbers
raise TypeError.  (A bool would be accepted by Python here and then rejected
by the float field validation, reaching the same generic handler, so both
are modelled as the error path.) -/
def pyNum : JVal → Except PyErr ℚ
  | .jnum q => .ok q
  | _ => .error .typeError

/-- ", ".join over a Python list: TypeError unless every element is a str. -/
def pyJoinStrs : List JVal → Except PyErr (List String)
  | [] => .ok []
  | .jstr s :: t =>
    match pyJoinStrs t with
    | .ok r => .ok (s :: r)
    | .error e => .error e
  | _ :: _ => .error .typeError

/- pydantic field validations (lax mode: ints and floats are both jnum;
wrong shapes raise ValidationError, caught by the agents' except blocks). -/

def vStr : JVal → Except PyErr String
  | .jstr s => .ok s
  | _ => .error .validationError

def vStrOpt : JVal → Except PyErr (Option String)
  | .jstr s => .ok (some s)
  | .jnull => .ok none
  | _ => .error .validationError

def vDict : JVal → Except PyErr (List (String × JVal))
  | .jobj fs => .ok fs
  | _ => .error .validationError

def vFloat : JVal → Except PyErr ℚ
  | .jnum q => .ok q
  | _ => .error .validationError

def vInt : JVal → Except PyErr ℤ
  | .jnum q => if q.den = 1 then .ok q.num else .error .validationError
  | _ => .error .validationError

def vListAny : JVal → Except PyErr (List JVal)
  | .jarr xs => .ok xs
  | _ => .error .validationError

def vListOpt : JVal → Except PyErr (Option (List JVal))
  | .jarr xs => .ok (some xs)
  | .jnull => .ok none
  | _ => .error .validationError

def vListStr : List JVal → Except PyErr (List String)
  | [] => .ok []
  | .jstr s :: t =>
    match vListStr t with
    | .ok r => .ok (s :: r)
    | .error e => .error e
  | _ :: _ => .error .validationError

def vListStrOpt : JVal → Except PyErr (Option (List String))
  | .jarr xs =>
    match vListStr xs with
    | .ok r => .ok (some r)
    | .error e => .error e
  | .jnull => .ok none
  | _ => .error .validationError

/-! ## CoordinatorAgent (src/agents/coordinator.py) -/

/-- RouteResult (pydantic model in coordinator.py). -/
structure RouteResult where
  agent : String
  context : String
  metadata : List (String × JVal)
  confidence : ℚ
  suggested_topics : Option (List JVal)
  rag_context_used : Bool

/-- Which return statement of CoordinatorAgent.route produced the result
(observational instrumentation of the control flow). -/
inductive RoutePath where
  | shortCircuit
  | parsed
  | recovered
  | keywordFallback
  | genericError
deriving DecidableEq

structure RouteTrace where
  result : RouteResult
  llmCalled : Bool
  path : RoutePath

/-- CoordinatorAgent._clean_response: strip Markdown fences, then keep the
brace-span match if any, then strip whitespace. -/
def clean_response (s : String) : String :=
  let cs := s.data
  let cs1 :=
    if containsL "```json".data cs then
      stripPyWs (takeUntilL "```".data ((afterFirstL "```json".data cs).getD []))
    else if containsL "```".data cs then
      if countAtLeast2 "```".data cs then
        stripPyWs (takeUntilL "```".data ((afterFirstL "```".data cs).getD []))
      else stripPyWs (stripEndsL (fun c => c = '\x60') cs)
    else cs
  let cs2 :=
    match braceSpanL cs1 with
    | some js => js
    | none => cs1
  ⟨stripPyWs cs2⟩

/-- The quote replacement table of _fix_json_problems (the dict literal's
unicode-escape entries repeat earlier keys, so each char maps once). -/
def fixQuote (c : Char) : Char :=
  if c = '«' ∨ c = '»' ∨ c.toNat = 0x201C ∨ c.toNat = 0x201D then '\"'
  else if c.toNat = 0x2018 ∨ c.toNat = 0x2019 then Char.ofNat 39
  else c

/-- One pass of re.sub removing a comma (plus optional whitespace) that is
directly followed by the given closing delimiter, structurally recursive on
a fuel bound (every step consumes at least one character, so length + 1
fuel always suffices and the fuel-exhaustion branch is unreachable). -/
def subCommaCloseF (close : Char) : Nat → List Char → List Char
  | 0, cs => cs
  | _ + 1, [] => []
  | fuel + 1, c :: rest =>
    if c = ',' then
      match rest.dropWhile isPyWs with
      | d :: r3 =>
        if d = close then close :: subCommaCloseF close fuel r3
        else c :: subCommaCloseF close fuel rest
      | [] => c :: subCommaCloseF close fuel rest
    else c :: subCommaCloseF close fuel rest

def subCommaClose (close : Char) (cs : List Char) : List Char :=
  subCommaCloseF close (cs.length + 1) cs

/-- CoordinatorAgent._fix_json_problems: replace typographic quotes, delete
control characters, remove trailing commas before closing delimiters. -/
def fix_json_problems (s : String) : String :=
  let cs1 := s.data.map fixQuote
  let cs2 := cs1.filter (fun c => ¬ (c.toNat ≤ 31 ∨ c.toNat = 127))
  ⟨subCommaClose ']' (subCommaClose '\x7d' cs2)⟩

/-- The field-extraction fallback inside _recover_json. -/
def recoverFields (cs : List Char) : List (String × JVal) :=
  let r1 : List (String × JVal) :=
    match findStrField "agent".data cs with
    | some a => [("agent", JVal.jstr a)]
    | none => []
  let r2 :=
    match findStrField "context".data cs with
    | some c => r1 ++ [("context", JVal.jstr c)]
    | none => r1
  let r3 :=
    match findNumField "confidence".data cs with
    | some num => r2 ++ [("confidence", JVal.jnum ((pyFloatDigits num).getD (1 / 2)))]
    | none => r2
  if (jlookup r3 "metadata").isNone then r3 ++ [("metadata", JVal.jobj [])] else r3

/-- CoordinatorAgent._recover_json: retry json.loads on the brace span (its
failure is swallowed), else assemble a record from field regexes.  Every
fallible step is handled, so the function itself never raises. -/
def recover_json (text : String) : Except PyErr JVal :=
  let cs := text.data
  match braceSpanL cs with
  | some js =>
    match loadsL js with
    | some v => .ok v
    | none => .ok (JVal.jobj (recoverFields cs))
  | none => .ok (JVal.jobj (recoverFields cs))

/-- CoordinatorAgent._normalize_agent_name. -/
def normalize_agent_name (s : String) : String :=
  let u := pyUpper s
  if pyContains u "ASSESS" then "ASSESSOR"
  else if pyContains u "INTERVIEW" then "INTERVIEWER"
  else if pyContains u "PLAN" then "PLANNER"
  else if pyContains u "REVIEW" then "REVIEWER"
  else u

/-- The keyword table of _fallback_agent_detection, in the dict's insertion
order (Python dicts iterate in insertion order). -/
def keyword_mapping : List (String × List String) :=
  [("interviewer", ["интервью", "опрос", "вопрос", "задай", "проведи", "mock",
                    "собеседование", "interview", "собеседовани", "экзамен"]),
   ("assessor", ["оцен", "тест", "провер", "уровень", "насколько", "диагнос",
                 "сильные", "слабые", "знания", "скиллы", "компетенции"]),
   ("planner", ["план", "roadmap", "программа", "расписан", "рекомендац",
                "изуч", "осво", "науч", "подготовк", "обучен",
                "микросервис", "архитектур", "docker", "kubernetes",
                "хочу изучать", "хочу научиться", "хочу освоить"]),
   ("reviewer", ["код", "решение", "задача", "оптимиз", "ревью", "разбор",
                 "алгоритм", "синтаксис", "паттерн", "рефакторинг"]),
   ("helper", ["совет", "как", "подготов", "что делать", "помощь",
               "объясни", "расскажи", "что такое", "зачем"])]

/-- CoordinatorAgent._fallback_agent_detection: first table row with a
keyword contained in the lower-cased message, else the clarification marker. -/
def fallback_agent_detection (user_text : String) : String :=
  let tl := pyLower user_text
  match keyword_mapping.find? (fun ag => ag.2.any (fun kw => pyContains tl kw)) with
  | some ag => pyUpper ag.1
  | none => "ASK_CLARIFICATION"

/-- The try block of route after the chat call returned raw text: clean,
fix, json.loads (JSONDecodeError on failure), read fields with defaults,
normalize the agent, clamp confidence, validate the pydantic fields. -/
def route_try (ragUsed : Bool) (raw : String) : Except PyErr RouteResult :=
  let text := fix_json_problems (clean_response ⟨stripPyWs raw.data⟩)
  match loads text with
  | none => .error (.jsonDecode text)
  | some data =>
    match pyGetD data "agent" (.jstr "INTERVIEWER") with
    | .error e => .error e
    | .ok agentV =>
      match pyStrUpper agentV with
      | .error e => .error e
      | .ok agentU =>
        let agent := normalize_agent_name agentU
        match pyGetD data "context" (.jstr "Общий запрос"),
              pyGetD data "metadata" (.jobj []),
              pyGetD data "confidence" (.jnum (1 / 2)),
              pyGetD data "suggested_topics" (.jarr []) with
        | .ok ctxV, .ok mdV, .ok confV, .ok stV =>
          match pyNum confV with
          | .error e => .error e
          | .ok confRaw =>
            let conf := min (max confRaw 0) 1
            match vStr ctxV, vDict mdV, vListOpt stV with
            | .ok ctx, .ok md, .ok st =>
              .ok { agent := agent, context := ctx, metadata := md,
                    confidence := conf, suggested_topics := st,
                    rag_context_used := ragUsed }
            | .error e, _, _ => .error e
            | _, .error e, _ => .error e
            | _, _, .error e => .error e
        | .error e, _, _, _ => .error e
        | _, .error e, _, _ => .error e
        | _, _, .error e, _ => .error e
        | _, _, _, .error e => .error e

/-- The JSONDecodeError handler of route: recover the record and build a
RouteResult from it — with NO clamp on the recovered confidence. -/
def route_recover (ragUsed : Bool) (text : String) : Except PyErr RouteResult :=
  match recover_json text with
  | .error e => .error e
  | .ok data =>
    match pyGetD data "agent" (.jstr "INTERVIEWER") with
    | .error e => .error e
    | .ok agentV =>
      match pyStrUpper agentV with
      | .error e => .error e
      | .ok agentU =>
        let agent := normalize_agent_name agentU
        match pyGetD data "context" (.jstr "Общий запрос"),
              pyGetD data "metadata" (.jobj []),
              pyGetD data "confidence" (.jnum (3 / 10)),
              pyGetD data "suggested_topics" (.jarr []) with
        | .ok ctxV, .ok mdV, .ok confV, .ok stV =>
          match vStr ctxV, vDict mdV, vFloat confV, vListOpt stV with
          | .ok ctx, .ok md, .ok conf, .ok st =>
            .ok { agent := agent, context := ctx, metadata := md,
                  confidence := conf, suggested_topics := st,
                  rag_context_used := ragUsed }
          | .error e, _, _, _ => .error e
          | _, .error e, _, _ => .error e
          | _, _, .error e, _ => .error e
          | _, _, _, .error e => .error e
        | .error e, _, _, _ => .error e
        | _, .error e, _, _ => .error e
        | _, _, .error e, _ => .error e
        | _, _, _, .error e => .error e

/-- The planning trigger prefixes checked by route. -/
def plannerTriggers : List String := ["/plan", "план", "планирование", "learning plan"]

/-- CoordinatorAgent.route.  The chat call is the llm parameter; ragUsed is
whether the RAG prompt variant was selected.  The trigger short-circuit
fires before the chat call; a chat exception reaches the generic handler;
a parse failure goes to the recovery handler, whose own failure would fall
back to keyword detection. -/
def route (llm : LLMResp) (user_text : String) (ragUsed : Bool) : RouteTrace :=
  if pyStartsWithAny (pyLower user_text) plannerTriggers then
    { result := { agent := "PLANNER",
                  context := "Пользователь явно запрашивает создание плана обучения",
                  metadata := [("topic", .jstr "planning"), ("urgency", .jstr "medium")],
                  confidence := 95 / 100,
                  suggested_topics := some [.jstr "обучение", .jstr "развитие"],
                  rag_context_used := false },
      llmCalled := false, path := .shortCircuit }
  else
    match llm with
    | .err e =>
      { result := { agent := "INTERVIEWER",
                    context := "Ошибка обработки: " ++ pyTake 100 e,
                    metadata := [("error", .jstr e)],
                    confidence := 1 / 10,
                    suggested_topics := none,
                    rag_context_used := ragUsed },
        llmCalled := true, path := .genericError }
    | .ok raw =>
      match route_try ragUsed raw with
      | .ok r => { result := r, llmCalled := true, path := .parsed }
      | .error (.jsonDecode text) =>
        match route_recover ragUsed text with
        | .ok r => { result := r, llmCalled := true, path := .recovered }
        | .error _ =>
          { result := { agent := fallback_agent_detection user_text,
                        context := "Ошибка парсинга, использовано fallback определение",
                        metadata := [("error", .jstr "JSONDecodeError"), ("fallback", .jbool true)],
                        confidence := 3 / 10,
                        suggested_topics := none,
                        rag_context_used := ragUsed },
            llmCalled := true, path := .keywordFallback }
      | .error _ =>
        { result := { agent := "INTERVIEWER",
                      context := "Ошибка обработки: ",
                      metadata := [],
                      confidence := 1 / 10,
                      suggested_topics := none,
                      rag_context_used := ragUsed },
          llmCalled := true, path := .genericError }

/-! ## InterviewerAgent (src/agents/interviewer_agent.py) -/

/-- InterviewQuestion (pydantic).  expected_concepts is an unconstrained
Python list, so its elements stay JVal. -/
structure InterviewQuestion where
  topic : String
  question : String
  expected_concepts : List JVal
  difficulty : String
  hints : Option (List String)
  similar_questions : Option (List String)
  rag_context_used : Bool

/-- InterviewScore (pydantic); score is an int. -/
structure InterviewScore where
  score : ℤ
  comment : String
  strong_points : Option (List String)
  weak_points : Option (List String)
  recommended_resources : Option (List String)

/-- InterviewSession (pydantic). -/
structure InterviewSession where
  id : String
  topic : String
  level : String
  questions : List InterviewQuestion
  current_question_index : ℕ
  scores : List InterviewScore
  started_at : String

/-- The active_sessions dict of the agent (keys unique by construction). -/
abbrev Store : Type := List (String × InterviewSession)

def storeFind (st : Store) (sid : String) : Option InterviewSession :=
  match st with
  | [] => none
  | (k, s) :: t => if k = sid then some s else storeFind t sid

/-- Python dict assignment: replace an existing key or append. -/
def storeSet (st : Store) (sid : String) (s : InterviewSession) : Store :=
  match st with
  | [] => [(sid, s)]
  | (k, s0) :: t => if k = sid then (sid, s) :: t else (k, s0) :: storeSet t sid s

/-- Python del active_sessions[sid] guarded by an `in` check. -/
def storeErase (st : Store) (sid : String) : Store :=
  st.filter (fun p => ¬ p.1 = sid)

/-- InterviewerAgent._extract_json: strip fences, parse the brace span if
present (that parse failure propagates as JSONDecodeError), else parse the
whole text, turning its failure into ValueError. -/
def extract_json (s : String) : Except PyErr JVal :=
  let cs0 := s.data
  let cs1 :=
    if isPrefixL "```json".data cs0 then stripPyWs (cs0.drop 7)
    else if isPrefixL "```".data cs0 then stripPyWs (cs0.drop 3)
    else cs0
  let cs2 :=
    if isSuffixL "```".data cs1 then stripPyWs (cs1.take (cs1.length - 3))
    else cs1
  match braceSpanL cs2 with
  | some js =>
    match loadsL js with
    | some v => .ok v
    | none => .error (.jsonDecode ⟨js⟩)
  | none =>
    match loadsL cs2 with
    | some v => .ok v
    | none => .error .valueError

/-- One parsed question record of start_interview's success loop, with the
code's defaults and pydantic validation. -/
def buildQuestion (topic : String) (ragUsed : Bool) (q : JVal) : Except PyErr InterviewQuestion :=
  match pyGetD q "topic" (.jstr topic) with
  | .error e => .error e
  | .ok tV =>
    match pyGetD q "question" (.jstr ("Расскажите о " ++ topic)),
          pyGetD q "expected_concepts" (.jarr [.jstr topic]),
          pyGetD q "difficulty" (.jstr "medium"),
          pyGetD q "hints" (.jarr []),
          pyGetD q "similar_questions" (.jarr []) with
    | .ok qV, .ok ecV, .ok dV, .ok hV, .ok sqV =>
      match vStr tV, vStr qV, vListAny ecV, vStr dV, vListStrOpt hV, vListStrOpt sqV with
      | .ok t, .ok qq, .ok ec, .ok d, .ok h, .ok sq =>
        .ok { topic := t, question := qq, expected_concepts := ec, difficulty := d,
              hints := h, similar_questions := sq, rag_context_used := ragUsed }
      | .error e, _, _, _, _, _ => .error e
      | _, .error e, _, _, _, _ => .error e
      | _, _, .error e, _, _, _ => .error e
      | _, _, _, .error e, _, _ => .error e
      | _, _, _, _, .error e, _ => .error e
      | _, _, _, _, _, .error e => .error e
    | .error e, _, _, _, _ => .error e
    | _, .error e, _, _, _ => .error e
    | _, _, .error e, _, _ => .error e
    | _, _, _, .error e, _ => .error e
    | _, _, _, _, .error e => .error e

def buildQuestions (topic : String) (ragUsed : Bool) : List JVal → Except PyErr (List InterviewQuestion)
  | [] => .ok []
  | q :: t =>
    match buildQuestion topic ragUsed q with
    | .error e => .error e
    | .ok iq =>
      match buildQuestions topic ragUsed t with
      | .error e => .error e
      | .ok rest => .ok (iq :: rest)

/-- The try body of start_interview: extract JSON, index "questions", take
at most three entries, build each question. -/
def parse_questions (topic : String) (ragUsed : Bool) (raw : String) : Except PyErr (List InterviewQuestion) :=
  match extract_json raw with
  | .error e => .error e
  | .ok data =>
    match pyIndex data "questions" with
    | .error e => .error e
    | .ok qsV =>
      match qsV with
      | .jarr xs => buildQuestions topic ragUsed (xs.take 3)
      | _ => .error .typeError

/-- The two hard-coded fallback questions of start_interview's except
handler (hints and similar_questions are left at the pydantic default None). -/
def fallback_questions (topic : String) : List InterviewQuestion :=
  [{ topic := topic, question := "Расскажите, что вы знаете о " ++ topic ++ "?",
     expected_concepts := [.jstr topic, .jstr "базовые принципы"],
     difficulty := "easy", hints := none, similar_questions := none,
     rag_context_used := false },
   { topic := topic, question := "Приведите пример использования " ++ topic ++ " в реальном проекте",
     expected_concepts := [.jstr "практическое применение", .jstr "примеры"],
     difficulty := "medium", hints := none, similar_questions := none,
     rag_context_used := false }]

/-- InterviewerAgent.start_interview.  The generated session is stored under
sid in both the success and excepts paths. -/
def start_interview (llm : LLMResp) (ragUsed : Bool) (topic level sid started : String)
    (st : Store) : InterviewSession × Store :=
  let questions :=
    match llm with
    | .err _ => fallback_questions topic
    | .ok raw =>
      match parse_questions topic ragUsed raw with
      | .ok qs => qs
      | .error _ => fallback_questions topic
  let s : InterviewSession :=
    { id := sid, topic := topic, level := level, questions := questions,
      current_question_index := 0, scores := [], started_at := started }
  (s, storeSet st sid s)

/-- InterviewerAgent.get_current_question. -/
def get_current_question (st : Store) (sid : String) : Option InterviewQuestion :=
  match storeFind st sid with
  | none => none
  | some s =>
    if s.current_question_index < s.questions.length then
      s.questions.get? s.current_question_index
    else none

/-- Parse + pydantic-validate of evaluate_answer's success path. -/
def parse_eval_score (raw : String) : Except PyErr InterviewScore :=
  match extract_json raw with
  | .error e => .error e
  | .ok data =>
    match pyGetD data "score" (.jnum 50),
          pyGetD data "comment" (.jstr "Ответ принят"),
          pyGetD data "strong_points" (.jarr []),
          pyGetD data "weak_points" (.jarr []),
          pyGetD data "recommended_resources" (.jarr []) with
    | .ok scV, .ok cmV, .ok spV, .ok wpV, .ok rrV =>
      match vInt scV, vStr cmV, vListStrOpt spV, vListStrOpt wpV, vListStrOpt rrV with
      | .ok sc, .ok cm, .ok sp, .ok wp, .ok rr =>
        .ok { score := sc, comment := cm, strong_points := sp,
              weak_points := wp, recommended_resources := rr }
      | .error e, _, _, _, _ => .error e
      | _, .error e, _, _, _ => .error e
      | _, _, .error e, _, _ => .error e
      | _, _, _, .error e, _ => .error e
      | _, _, _, _, .error e => .error e
    | .error e, _, _, _, _ => .error e
    | _, .error e, _, _, _ => .error e
    | _, _, .error e, _, _ => .error e
    | _, _, _, .error e, _ => .error e
    | _, _, _, _, .error e => .error e

def sessionNotFoundScore : InterviewScore :=
  { score := 0, comment := "Сессия не найдена", strong_points := some [],
    weak_points := some ["Сессия устарела или не существует"], recommended_resources := none }

def allDoneScore : InterviewScore :=
  { score := 0, comment := "Все вопросы пройдены", strong_points := some [],
    weak_points := some [], recommended_resources := none }

def techErrorScore : InterviewScore :=
  { score := 50, comment := "Произошла ошибка при оценке ответа", strong_points := some [],
    weak_points := some ["Техническая ошибка"], recommended_resources := some [] }

/-- InterviewerAgent.evaluate_answer.  withRag selects the prompt variant
whose construction joins expected_concepts — a join over non-strings raises
before the try block and therefore propagates (the only uncaught path). -/
def evaluate_answer (llm : LLMResp) (withRag : Bool) (st : Store) (sid : String) :
    Except PyErr (InterviewScore × Store) :=
  match storeFind st sid with
  | none => .ok (sessionNotFoundScore, st)
  | some s =>
    if h : s.current_question_index < s.questions.length then
      let q := s.questions.get ⟨s.current_question_index, h⟩
      match (if withRag then (pyJoinStrs q.expected_concepts).map (fun _ => ()) else .ok ()) with
      | .error e => .error e
      | .ok _ =>
        match llm with
        | .err _ => .ok (techErrorScore, st)
        | .ok raw =>
          match parse_eval_score raw with
          | .error _ => .ok (techErrorScore, st)
          | .ok score =>
            let s2 : InterviewSession :=
              { s with scores := s.scores ++ [score],
                       current_question_index := s.current_question_index + 1 }
            .ok (score, storeSet st sid s2)
    else .ok (allDoneScore, st)

/-- Round n / d (with d positive) half to even, in integer arithmetic
(kernel-evaluable, unlike the field operations of ℚ). -/
def roundHalfEvenInt (n : ℤ) (d : ℕ) : ℤ :=
  let f := Int.fdiv n d
  let r := n - f * d
  if 2 * r < d then f
  else if (d : ℤ) < 2 * r then f + 1
  else if f % 2 = 0 then f else f + 1

/-- Python round(x, 1) on the exact rational mean: round-half-even of
10·q, divided by ten.  (The source computes the mean in binary floating
point; for the score lists this program can produce — at most three
integer scores in 0..100 — the exact rational rounding agrees with the
float rounding.) -/
def pyRound1 (q : ℚ) : ℚ := mkRat (roundHalfEvenInt (10 * q.num) q.den) 10

/-- The record returned by get_interview_summary once scores exist.  The
datetime-derived duration field is not modelled (wall-clock time). -/
structure SummaryRec where
  session_id : String
  topic : String
  level : String
  total_questions : ℕ
  completed_questions : ℕ
  average_score : ℚ
  performance_level : String
  strong_points : List String
  weak_points : List String
  rag_used : Bool

/-- The three shapes of dict get_interview_summary can return. -/
inductive SummaryOut where
  | noSession
  | active (completed total : ℕ)
  | full (r : SummaryRec)

/-- Python list(set(xs)): the distinct elements (set iteration order is not
specified by Python; the model keeps one canonical order, and the claims
proved about the result — distinctness, cap, membership — hold for any
order). -/
def pySetList (xs : List String) : List String := xs.dedup

def collectPoints (f : InterviewScore → Option (List String)) (scores : List InterviewScore) : List String :=
  scores.foldl (fun acc sc => acc ++ (f sc).getD []) []

/-- total / len as an exact rational (mkRat is Python's true division here;
both give 0 for an empty list, a case the caller has already excluded). -/
def meanScore (scores : List InterviewScore) : ℚ :=
  mkRat (scores.map (fun sc => sc.score)).sum scores.length

def performanceLevelOf (avg : ℚ) : String :=
  if 80 ≤ avg then "Отлично"
  else if 60 ≤ avg then "Хорошо"
  else if 40 ≤ avg then "Удовлетворительно"
  else "Требует улучшений"

/-- InterviewerAgent.get_interview_summary. -/
def get_interview_summary (st : Store) (sid : String) : SummaryOut :=
  match storeFind st sid with
  | none => .noSession
  | some s =>
    if s.scores.isEmpty then .active s.current_question_index s.questions.length
    else
      let avg := meanScore s.scores
      .full { session_id := sid, topic := s.topic, level := s.level,
              total_questions := s.questions.length,
              completed_questions := s.scores.length,
              average_score := pyRound1 avg,
              performance_level := performanceLevelOf avg,
              strong_points := (pySetList (collectPoints (fun sc => sc.strong_points) s.scores)).take 5,
              weak_points := (pySetList (collectPoints (fun sc => sc.weak_points) s.scores)).take 5,
              rag_used := s.questions.any (fun q => q.rag_context_used) }

def defaultRecommendations : List JVal :=
  [.jstr "Практиковаться на LeetCode", .jstr "Изучать документацию по теме",
   .jstr "Проходить mock интервью"]

structure EndResult where
  summary : SummaryOut
  recommendations : Option (List JVal)
  store : Store

/-- InterviewerAgent.end_interview: take the summary, try to generate
recommendations when weak points exist (any llm / parse failure yields the
fixed defaults; a completion without a bracketed list leaves the field
unset), then delete the session. -/
def end_interview (llm : LLMResp) (st : Store) (sid : String) : EndResult :=
  let sm := get_interview_summary st sid
  let recs : Option (List JVal) :=
    match sm with
    | .full r =>
      if r.weak_points.isEmpty then none
      else
        match llm with
        | .err _ => some defaultRecommendations
        | .ok raw =>
          match bracketSpanL raw.data with
          | none => none
          | some br =>
            match loadsL br with
            | some (.jarr xs) => some xs
            | some _ => some defaultRecommendations
            | none => some defaultRecommendations
    | _ => none
  { summary := sm, recommendations := recs, store := storeErase st sid }

/-! ## AssessorAgent (src/agents/assessor_agent.py) -/

/-- AssessResult (pydantic): scores is a dict, weak_topics an arbitrary
list, follow_up a str, feedback an optional str. -/
structure AssessResult where
  scores : List (String × JVal)
  weak_topics : List JVal
  follow_up : String
  feedback : Option String
  context_used : Bool

/-- The Markdown cleanup at the head of assess's try block. -/
def assess_clean (s : String) : String :=
  let cs := s.data
  if containsL "```json".data cs then
    ⟨stripPyWs (takeUntilL "```".data ((afterFirstL "```json".data cs).getD []))⟩
  else if containsL "```".data cs then
    ⟨stripPyWs (stripEndsL (fun c => c = '\x60') cs)⟩
  else ⟨cs⟩

/-- Building an AssessResult from parsed JSON with the .get defaults and
pydantic validation. -/
def assess_build (ctxUsed : Bool) (data : JVal) : Except PyErr AssessResult :=
  match pyGetD data "scores" (.jobj []),
        pyGetD data "weak_topics" (.jarr []),
        pyGetD data "follow_up" (.jstr ""),
        pyGetD data "feedback" (.jstr "") with
  | .ok scV, .ok wtV, .ok fuV, .ok fbV =>
    match vDict scV, vListAny wtV, vStr fuV, vStrOpt fbV with
    | .ok sc, .ok wt, .ok fu, .ok fb =>
      .ok { scores := sc, weak_topics := wt, follow_up := fu,
            feedback := fb, context_used := ctxUsed }
    | .error e, _, _, _ => .error e
    | _, .error e, _, _ => .error e
    | _, _, .error e, _ => .error e
    | _, _, _, .error e => .error e
  | .error e, _, _, _ => .error e
  | _, .error e, _, _ => .error e
  | _, _, .error e, _ => .error e
  | _, _, _, .error e => .error e

/-- The fallback record of assess's JSONDecodeError handler. -/
def assessFallback60 (topics : List String) (ctxUsed : Bool) : AssessResult :=
  { scores := [("theory", .jnum 60), ("practice", .jnum 60), ("interview_readiness", .jnum 60)],
    weak_topics :=
      if topics.isEmpty then [.jstr "алгоритмы", .jstr "системный дизайн"]
      else (topics.take 2).map (fun t => .jstr t),
    follow_up := "Расскажите, какие задачи вы уже решали на собеседованиях или в проектах?",
    feedback := some ("Ответ выглядит в целом неплохо, чтобы начинать пробовать собеседования, " ++
      "но для более точной оценки лучше пройти полноценный тест через команду /assess."),
    context_used := ctxUsed }

/-- The fallback record of assess's generic except handler. -/
def assessFallback50 : AssessResult :=
  { scores := [("theory", .jnum 50), ("practice", .jnum 50), ("interview_readiness", .jnum 50)],
    weak_topics := [.jstr "технические вопросы", .jstr "алгоритмы"],
    follow_up := "Хочется ли вам сейчас получить подробный план подготовки или пройти мини‑тест?",
    feedback := some ("Произошла техническая ошибка при анализе ответа. " ++
      "Попробуйте ещё раз или воспользуйтесь командой /assess."),
    context_used := false }

/-- AssessorAgent.assess after prompt construction: a chat failure or a
validation failure hits the generic handler; a json.loads failure hits the
JSONDecodeError handler, which retries on the brace span and otherwise
returns the 60-score fallback. -/
def assess (llm : LLMResp) (topics : List String) (ctxUsed : Bool) : Except PyErr AssessResult :=
  match llm with
  | .err _ => .ok assessFallback50
  | .ok raw =>
    let content := assess_clean raw
    match loads content with
    | some data =>
      match assess_build ctxUsed data with
      | .ok r => .ok r
      | .error _ => .ok assessFallback50
    | none =>
      match braceSpanL content.data with
      | some js =>
        match loadsL js with
        | some d2 =>
          match assess_build ctxUsed d2 with
          | .ok r => .ok r
          | .error _ => .ok (assessFallback60 topics ctxUsed)
        | none => .ok (assessFallback60 topics ctxUsed)
      | none => .ok (assessFallback60 topics ctxUsed)

/-! ## Planning confirmation handler (src/bot/handlers/planning.py,
process_plan_details) -/

/-- Python truthiness of a json-shaped value. -/
def pyTruthy : JVal → Bool
  | .jnull => false
  | .jbool b => b
  | .jnum q => ¬ q = 0
  | .jstr s => ¬ s.data.isEmpty
  | .jarr xs => ¬ xs.isEmpty
  | .jobj fs => ¬ fs.isEmpty

/-- What the handler replied with. -/
inductive PlanReply where
  | details
  | planNotFound
  | skipSave
  | saved
  | nothingToSave
  | notSaved
  | reprompt
deriving DecidableEq

/-- Observable effect of one process_plan_details call: the reply, whether
state.clear() ran (back to the stateless Idle), whether the plan was
persisted via PlanRepository.save_learning_plan. -/
structure PlanStep where
  reply : PlanReply
  cleared : Bool
  persisted : Bool

/-- plan_result.get('plan') truthiness as used in the details branch. -/
def planFieldTruthy (pr : List (String × JVal)) : Bool :=
  pyTruthy ((jlookup pr "plan").getD .jnull)

/-- process_plan_details: branches on the lower-cased message text; the
plan_result stored in FSM state data is an Option dict. -/
def process_plan_details (text : String) (plan_result : Option (List (String × JVal))) : PlanStep :=
  let t := pyLower text
  if t = "да" ∨ t = "yes" ∨ t = "покажи" ∨ t = "детали" then
    match plan_result with
    | some pr =>
      if pyTruthy (.jobj pr) && planFieldTruthy pr then
        { reply := .details, cleared := false, persisted := false }
      else { reply := .planNotFound, cleared := true, persisted := false }
    | none => { reply := .planNotFound, cleared := true, persisted := false }
  else if t = "нет" ∨ t = "no" ∨ t = "пропустить" then
    { reply := .skipSave, cleared := true, persisted := false }
  else if t = "✅ сохранить план" then
    match plan_result with
    | some pr =>
      if pyTruthy (.jobj pr) then { reply := .saved, cleared := true, persisted := true }
      else { reply := .nothingToSave, cleared := true, persisted := false }
    | none => { reply := .nothingToSave, cleared := true, persisted := false }
  else if t = "❌ не сохранять" then
    { reply := .notSaved, cleared := true, persisted := false }
  else
    { reply := .reprompt, cleared := false, persisted := false }

/-! ## Invariants, run helpers and sample data -/

def sessionWF (s : InterviewSession) : Prop :=
  s.current_question_index ≤ s.questions.length

def storeWF (st : Store) : Prop := ∀ p ∈ st, sessionWF p.2

/-- Whether a completion text parses into a score (evaluation success). -/
def evalParseOk : LLMResp → Bool
  | .ok raw => (parse_eval_score raw).isOk
  | .err _ => false

/-- Feeding a sequence of completion outcomes through evaluate_answer
(the per-turn loop of the interview flow), without the RAG prompt branch. -/
def run_interview (resps : List LLMResp) (st : Store) (sid : String) : Store :=
  resps.foldl (fun acc r =>
    match evaluate_answer r false acc sid with
    | .ok (_, st2) => st2
    | .error _ => acc) st

/-- Join-safety of the current question's expected_concepts, the condition
under which the RAG prompt construction in evaluate_answer cannot raise. -/
def current_concepts_ok (st : Store) (sid : String) : Bool :=
  match get_current_question st sid with
  | some q => (pyJoinStrs q.expected_concepts).isOk
  | none => true

def sampleEvalReply : String :=
  "\x7b\"score\": 85, \"comment\": \"ok\", \"strong_points\": [\"x\"], \"weak_points\": [\"y\"]\x7d"

def sampleStore : Store :=
  (start_interview (.err "boom") false "python" "junior" "s1" "t0" []).2

def score85 : InterviewScore :=
  { score := 85, comment := "ok", strong_points := some ["x"],
    weak_points := some ["y"], recommended_resources := some [] }

def score40 : InterviewScore :=
  { score := 40, comment := "weak", strong_points := some ["x"],
    weak_points := some ["z"], recommended_resources := some [] }

def sampleScoredSession : InterviewSession :=
  { id := "s7", topic := "python", level := "junior",
    questions := fallback_questions "python",
    current_question_index := 2, scores := [score85, score40], started_at := "t0" }

def sampleScoredStore : Store := [("s7", sampleScoredSession)]

def badConfidenceReply : String := "\x7b\"agent\": \"PLANNER\" \"confidence\": 1.7\x7d"

def helperReply : String := "\x7b\"agent\": \"HELPER\", \"confidence\": 0.8\x7d"

def samplePlanResult : List (String × JVal) :=
  [("plan", .jarr [.jobj [("week", .jnum 1)]]), ("summary", .jstr "s"), ("total_weeks", .jnum 4)]

/-! ## Helper lemmas -/

theorem route_try_confidence_bounds (ragUsed : Bool) (raw : String) (r : RouteResult)
    (h : route_try ragUsed raw = .ok r) : 0 ≤ r.confidence ∧ r.confidence ≤ 1 := by
  unfold route_try at h
  dsimp only [] at h
  repeat' split at h
  all_goals cases h
  constructor
  · exact le_min (le_max_right _ _) zero_le_one
  · exact min_le_right _ _

theorem storeFind_storeSet_self (st : Store) (sid : String) (s : InterviewSession) :
    storeFind (storeSet st sid s) sid = some s := by
  induction st with
  | nil => simp [storeSet, storeFind]
  | cons p t ih =>
    obtain ⟨k, s0⟩ := p
    by_cases h : k = sid
    · simp [storeSet, storeFind, h]
    · simp [storeSet, storeFind, h, ih]

theorem storeWF_storeSet (st : Store) (sid : String) (s : InterviewSession)
    (hwf : storeWF st) (hs : sessionWF s) : storeWF (storeSet st sid s) := by
  induction st with
  | nil =>
    intro p hp
    simp [storeSet] at hp
    simp [hp, hs]
  | cons q t ih =>
    obtain ⟨k, s0⟩ := q
    intro p hp
    by_cases h : k = sid
    · simp [storeSet, h] at hp
      rcases hp with hp | hp
      · simp [hp, hs]
      · exact hwf p (by simp [hp])
    · simp [storeSet, h] at hp
      rcases hp with hp | hp
      · exact hwf p (by simp [hp])
      · exact ih (fun p2 hp2 => hwf p2 (by simp [hp2])) p hp

theorem storeFind_erase (st : Store) (sid : String) :
    storeFind (storeErase st sid) sid = none := by
  induction st with
  | nil => rfl
  | cons p t ih =>
    obtain ⟨k, s0⟩ := p
    by_cases h : k = sid
    · simpa [storeErase, List.filter_cons, h] using ih
    · simpa [storeErase, List.filter_cons, h, storeFind] using ih

theorem buildQuestions_length (topic : String) (ragUsed : Bool) :
    ∀ xs qs, buildQuestions topic ragUsed xs = .ok qs → qs.length = xs.length := by
  intro xs
  induction xs with
  | nil => intro qs h; cases h; rfl
  | cons x t ih =>
    intro qs h
    unfold buildQuestions at h
    split at h
    · cases h
    · split at h
      · cases h
      · cases h
        simp [ih _ (by assumption)]

theorem evaluate_answer_step (raw : String) (st : Store) (sid : String)
    (s : InterviewSession) (sc : InterviewScore)
    (hf : storeFind st sid = some s)
    (hi : s.current_question_index < s.questions.length)
    (hp : parse_eval_score raw = .ok sc) :
    evaluate_answer (.ok raw) false st sid =
      .ok (sc, storeSet st sid
        { s with scores := s.scores ++ [sc],
                 current_question_index := s.current_question_index + 1 }) := by
  simp [evaluate_answer, hf, hi, hp]

theorem run_interview_cons (r : LLMResp) (rest : List LLMResp) (st : Store) (sid : String) :
    run_interview (r :: rest) st sid =
      run_interview rest
        (match evaluate_answer r false st sid with
         | .ok (_, st2) => st2
         | .error _ => st) sid := rfl

theorem run_interview_aux (sid : String) :
    ∀ (resps : List LLMResp) (st : Store) (s : InterviewSession),
      storeFind st sid = some s →
      (∀ r ∈ resps, evalParseOk r = true) →
      s.current_question_index + resps.length ≤ s.questions.length →
      ∃ s2, storeFind (run_interview resps st sid) sid = some s2 ∧
        s2.current_question_index = s.current_question_index + resps.length ∧
        s2.questions = s.questions := by
  intro resps
  induction resps with
  | nil =>
    intro st s hf _ _
    exact ⟨s, hf, by simp, rfl⟩
  | cons r rest ih =>
    intro st s hf hall hle
    have hr : evalParseOk r = true := hall r (by simp)
    cases r with
    | err e => simp [evalParseOk] at hr
    | ok raw =>
      simp only [evalParseOk] at hr
      cases hp : parse_eval_score raw with
      | error e => rw [hp] at hr; simp [Except.toBool, Except.isOk] at hr
      | ok sc =>
        have hi : s.current_question_index < s.questions.length := by
          simp only [List.length_cons] at hle; omega
        have hstep := evaluate_answer_step raw st sid s sc hf hi hp
        rw [run_interview_cons, hstep]
        obtain ⟨s3, h3f, h3i, h3q⟩ := ih
          (storeSet st sid
            { s with scores := s.scores ++ [sc],
                     current_question_index := s.current_question_index + 1 })
          { s with scores := s.scores ++ [sc],
                   current_question_index := s.current_question_index + 1 }
          (storeFind_storeSet_self st sid _)
          (fun r2 hr2 => hall r2 (by simp [hr2]))
          (by simp only [List.length_cons] at hle ⊢; omega)
        refine ⟨s3, h3f, ?_, h3q⟩
        rw [h3i]
        simp only [List.length_cons]
        omega

/-! ## Claim theorems: json repair and router -/

/-- C1 counterexample: the interviewer's _extract_json raises ValueError on
the empty string, so "the extraction/repair routine never raises" fails as
stated. -/
theorem extract_json_raises_on_empty :
    extract_json "" = Except.error PyErr.valueError := rfl

/-- C1 (amended): the coordinator's _recover_json is total — every input
yields a record without raising — while the interviewer's _extract_json
raises on inputs with no parseable JSON (empty string, plain prose) and
returns the parsed value on actual JSON; its callers catch the exception. -/
theorem json_repair_amended :
    (∀ s, ∃ v, recover_json s = Except.ok v) ∧
    (extract_json "").isOk = false ∧
    (extract_json "обычный текст без скобок").isOk = false ∧
    (extract_json "\x7b\"agent\": \"X\"\x7d").isOk = true := by
  refine ⟨?_, by decide, by decide, by decide⟩
  intro s
  unfold recover_json
  dsimp only []
  repeat' split
  all_goals exact ⟨_, rfl⟩

/-- C2: any message whose lower-cased text starts with a planning trigger
short-circuits route to PLANNER with the fixed confidence 0.95 (≥ 0.9)
without calling the completion service. -/
theorem route_planner_short_circuit (llm : LLMResp) (msg : String) (ragUsed : Bool)
    (htrig : pyStartsWithAny (pyLower msg) plannerTriggers = true) :
    (route llm msg ragUsed).result.agent = "PLANNER" ∧
    (route llm msg ragUsed).result.confidence = 95 / 100 ∧
    (9 : ℚ) / 10 ≤ (route llm msg ragUsed).result.confidence ∧
    (route llm msg ragUsed).llmCalled = false := by
  refine ⟨?_, ?_, ?_, ?_⟩ <;> simp [route, htrig]
  all_goals norm_num

theorem route_planner_short_circuit_witness :
    pyStartsWithAny (pyLower "/plan алгоритмы") plannerTriggers = true ∧
    (route (.err "down") "/plan алгоритмы" false).result.agent = "PLANNER" ∧
    (route (.err "down") "/plan алгоритмы" false).llmCalled = false := by
  have h := route_planner_short_circuit (.err "down") "/plan алгоритмы" false (by decide)
  exact ⟨by decide, h.1, h.2.2.2⟩

/-- C3 counterexample: when the completion text is broken JSON whose
confidence field is still regex-recoverable, route returns the recovered
confidence 1.7 unclamped. -/
theorem route_confidence_unclamped_on_recovery :
    (route (.ok badConfidenceReply) "расскажи про ооп" false).result.confidence = 17 / 10 ∧
    ¬ (route (.ok badConfidenceReply) "расскажи про ооп" false).result.confidence ≤ 1 := by
  have h : (route (.ok badConfidenceReply) "расскажи про ооп" false).result.confidence
      = mkRat 17 10 := by decide
  rw [h, Rat.mkRat_eq_div]
  norm_num

/-- C3 (amended): on every return path except the JSON-recovery one the
confidence lies in [0, 1] — clamped on the parsed path, fixed constants on
the short-circuit, keyword-fallback and generic-error paths. -/
theorem route_confidence_clamped_off_recovery (llm : LLMResp) (msg : String) (ragUsed : Bool)
    (hpath : (route llm msg ragUsed).path ≠ RoutePath.recovered) :
    0 ≤ (route llm msg ragUsed).result.confidence ∧
    (route llm msg ragUsed).result.confidence ≤ 1 := by
  by_cases htrig : pyStartsWithAny (pyLower msg) plannerTriggers = true
  · simp [route, htrig]; norm_num
  · simp only [Bool.not_eq_true] at htrig
    cases llm with
    | err e => simp [route, htrig]; norm_num
    | ok raw =>
      cases hrt : route_try ragUsed raw with
      | ok r =>
        have hb := route_try_confidence_bounds ragUsed raw r hrt
        simpa [route, htrig, hrt] using hb
      | error pe =>
        cases pe with
        | jsonDecode text =>
          cases hrr : route_recover ragUsed text with
          | ok r2 =>
            exfalso
            apply hpath
            simp [route, htrig, hrt, hrr]
          | error e2 => simp [route, htrig, hrt, hrr]; norm_num
        | typeError => simp [route, htrig, hrt]; norm_num
        | attributeError => simp [route, htrig, hrt]; norm_num
        | validationError => simp [route, htrig, hrt]; norm_num
        | valueError => simp [route, htrig, hrt]; norm_num
        | keyError => simp [route, htrig, hrt]; norm_num

theorem route_confidence_clamped_off_recovery_witness :
    (route (.err "down") "просто вопрос" false).path ≠ RoutePath.recovered ∧
    (0 ≤ (route (.err "down") "просто вопрос" false).result.confidence ∧
     (route (.err "down") "просто вопрос" false).result.confidence ≤ 1) := by
  have hp : (route (.err "down") "просто вопрос" false).path = RoutePath.genericError := by decide
  have hne : (route (.err "down") "просто вопрос" false).path ≠ RoutePath.recovered := by
    rw [hp]; decide
  exact ⟨hne, route_confidence_clamped_off_recovery (.err "down") "просто вопрос" false hne⟩

/-- C4 counterexample: with the completion service always failing, route
on a message without any keyword returns the fixed INTERVIEWER record, not
the claimed clarification marker. -/
theorem route_llm_failure_returns_interviewer :
    (route (.err "network down") "bluhbluh xyz" false).result.agent = "INTERVIEWER" ∧
    ¬ (route (.err "network down") "bluhbluh xyz" false).result.agent = "ASK_CLARIFICATION" := by
  constructor <;> decide

/-- C4 (amended): a failing model call reaches the generic handler, which
returns INTERVIEWER with confidence 0.1 for every non-trigger message — the
keyword fallback is not consulted; unparseable model text reaches the
JSON-recovery handler, whose defaults give INTERVIEWER with confidence 0.3;
the keyword table itself maps the interview message to INTERVIEWER and the
keyword-free message to ASK_CLARIFICATION, as the claim describes. -/
theorem route_failure_policy_amended :
    (∀ e msg ragUsed, pyStartsWithAny (pyLower msg) plannerTriggers = false →
      (route (.err e) msg ragUsed).result.agent = "INTERVIEWER" ∧
      (route (.err e) msg ragUsed).result.confidence = 1 / 10 ∧
      (route (.err e) msg ragUsed).path = RoutePath.genericError) ∧
    ((route (.ok "здесь нет никакого json") "bluhbluh xyz" false).result.agent = "INTERVIEWER" ∧
     (route (.ok "здесь нет никакого json") "bluhbluh xyz" false).result.confidence = 3 / 10 ∧
     (route (.ok "здесь нет никакого json") "bluhbluh xyz" false).path = RoutePath.recovered) ∧
    fallback_agent_detection "хочу пройти собеседование по Python" = "INTERVIEWER" ∧
    fallback_agent_detection "bluhbluh xyz" = "ASK_CLARIFICATION" := by
  refine ⟨?_, ⟨by decide, rfl, by decide⟩, by decide, by decide⟩
  intro e msg ragUsed h
  refine ⟨?_, ?_, ?_⟩ <;> simp [route, h]

theorem route_failure_policy_amended_witness :
    pyStartsWithAny (pyLower "bluhbluh xyz") plannerTriggers = false ∧
    (route (.err "network down") "bluhbluh xyz" false).path = RoutePath.genericError := by
  have h := route_failure_policy_amended.1 "network down" "bluhbluh xyz" false (by decide)
  exact ⟨by decide, h.2.2⟩

/-! ## Claim theorems: interview sizing, planning flow, catalog escape -/

/-- C8 counterexample: when question generation fails, the fallback session
has exactly 2 questions, not the claimed fixed size of 3. -/
theorem start_interview_fallback_two_questions :
    (start_interview (.err "boom") false "python" "junior" "s1" "t0" []).1.questions.length = 2 ∧
    ¬ (start_interview (.err "boom") false "python" "junior" "s1" "t0" []).1.questions.length = 3 := by
  constructor <;> decide

/-- C8 (amended): start_interview returns at most 3 questions on the
success path (the parsed list is truncated at three) and exactly the two
fixed fallback questions when the call or parse fails. -/
theorem start_interview_question_count_amended :
    (∀ llm ragUsed topic level sid started st,
      (start_interview llm ragUsed topic level sid started st).1.questions.length ≤ 3) ∧
    (∀ e ragUsed topic level sid started st,
      (start_interview (.err e) ragUsed topic level sid started st).1.questions =
        fallback_questions topic ∧
      (fallback_questions topic).length = 2) := by
  constructor
  · intro llm ragUsed topic level sid started st
    unfold start_interview
    dsimp only []
    cases llm with
    | err e => simp [fallback_questions]
    | ok raw =>
      cases hp : parse_questions topic ragUsed raw with
      | error e => simp [hp, fallback_questions]
      | ok qs =>
        simp only [hp]
        unfold parse_questions at hp
        repeat' split at hp
        all_goals try cases hp
        rw [buildQuestions_length topic ragUsed _ qs hp]
        exact List.length_take_le _ _
  · intro e ragUsed topic level sid started st
    exact ⟨rfl, rfl⟩

/-- C9 counterexample: in the save-confirmation state an affirmative "да"
neither persists the plan nor returns the flow to Idle — it prints the
details and stays in the same state. -/
theorem plan_confirmation_yes_does_not_save :
    (process_plan_details "да" (some samplePlanResult)).persisted = false ∧
    (process_plan_details "да" (some samplePlanResult)).cleared = false := by
  constructor <;> decide

/-- C9 (amended): in the confirmation state, да/yes/покажи/детали with a
present plan shows details and stays; нет/no/пропустить discards and
clears; the exact save-button text persists (plan present) and clears; the
discard-button text clears without persisting; anything else re-prompts
and stays. -/
theorem plan_confirmation_amended :
    (∀ text pr,
      (pyLower text = "да" ∨ pyLower text = "yes" ∨ pyLower text = "покажи" ∨
        pyLower text = "детали") →
      (pyTruthy (.jobj pr) && planFieldTruthy pr) = true →
      process_plan_details text (some pr) = ⟨.details, false, false⟩) ∧
    (∀ text d,
      (pyLower text = "нет" ∨ pyLower text = "no" ∨ pyLower text = "пропустить") →
      process_plan_details text d = ⟨.skipSave, true, false⟩) ∧
    (∀ text pr, pyLower text = "✅ сохранить план" → pyTruthy (.jobj pr) = true →
      process_plan_details text (some pr) = ⟨.saved, true, true⟩) ∧
    (∀ text d, pyLower text = "❌ не сохранять" →
      process_plan_details text d = ⟨.notSaved, true, false⟩) ∧
    (∀ text d,
      pyLower text ∉ (["да", "yes", "покажи", "детали", "нет", "no", "пропустить",
        "✅ сохранить план", "❌ не сохранять"] : List String) →
      process_plan_details text d = ⟨.reprompt, false, false⟩) := by
  refine ⟨?_, ?_, ?_, ?_, ?_⟩
  · intro text pr h1 h2
    rcases h1 with h | h | h | h <;> simp [process_plan_details, h, h2]
  · intro text d h
    rcases h with h | h | h <;> simp [process_plan_details, h]
  · intro text pr h1 h2
    simp [process_plan_details, h1, h2]
  · intro text d h
    simp [process_plan_details, h]
  · intro text d h
    simp only [List.mem_cons, List.not_mem_nil, or_false, not_or] at h
    obtain ⟨n1, n2, n3, n4, n5, n6, n7, n8, n9⟩ := h
    simp [process_plan_details, n1, n2, n3, n4, n5, n6, n7, n8, n9]

theorem plan_confirmation_amended_witness :
    pyLower "Нет" = "нет" ∧
    process_plan_details "Нет" none = ⟨.skipSave, true, false⟩ := by
  refine ⟨by decide, ?_⟩
  exact plan_confirmation_amended.2.1 "Нет" none (Or.inl (by decide))

/-- C10 counterexample: on the message "совет" with unparseable model text
route returns INTERVIEWER via the recovery defaults — not HELPER via the
keyword fallback, which route never reaches. -/
theorem route_sovet_not_helper :
    (route (.ok "спасибо за вопрос") "совет" false).result.agent = "INTERVIEWER" ∧
    ¬ (route (.ok "спасибо за вопрос") "совет" false).result.agent = "HELPER" := by
  constructor <;> decide

/-- C10 (amended): the router's output still escapes the fixed catalog,
but through the model-output path: a completion naming agent HELPER is
passed through unchanged by the normalization (which returns any
upper-cased name without an ASSESS/INTERVIEW/PLAN/REVIEW substring as is),
and the keyword table itself maps "совет" to HELPER even though route
never consults it. -/
theorem router_output_beyond_catalog_amended :
    (route (.ok helperReply) "совет" false).result.agent = "HELPER" ∧
    "HELPER" ∉ (["INTERVIEWER", "ASSESSOR", "PLANNER", "REVIEWER", "ASK_CLARIFICATION"] : List String) ∧
    fallback_agent_detection "совет" = "HELPER" ∧
    (∀ s, pyContains (pyUpper s) "ASSESS" = false →
      pyContains (pyUpper s) "INTERVIEW" = false →
      pyContains (pyUpper s) "PLAN" = false →
      pyContains (pyUpper s) "REVIEW" = false →
      normalize_agent_name s = pyUpper s) := by
  refine ⟨by decide, by decide, by decide, ?_⟩
  intro s h1 h2 h3 h4
  simp [normalize_agent_name, h1, h2, h3, h4]

theorem router_output_beyond_catalog_witness :
    pyContains (pyUpper "helper") "ASSESS" = false ∧
    normalize_agent_name "helper" = "HELPER" := by
  refine ⟨by decide, ?_⟩
  have h := router_output_beyond_catalog_amended.2.2.2 "helper"
    (by decide) (by decide) (by decide) (by decide)
  rw [h]
  decide

/-! ## Claim theorems: error propagation -/

/-- C5: neither cited operation lets an exception from the completion call
or from output parsing escape: assess always returns a record, and
evaluate_answer always returns a score (under the side condition that the
RAG prompt construction itself — which is outside the try block and joins
expected_concepts — does not raise). -/
theorem agent_errors_never_propagate :
    (∀ llm topics ctxUsed, ∃ r, assess llm topics ctxUsed = Except.ok r) ∧
    (∀ llm withRag st sid,
      (withRag = true → current_concepts_ok st sid = true) →
      ∃ out, evaluate_answer llm withRag st sid = Except.ok out) := by
  constructor
  · intro llm topics ctxUsed
    unfold assess
    cases llm with
    | err e => exact ⟨_, rfl⟩
    | ok raw =>
      dsimp only []
      repeat' split
      all_goals exact ⟨_, rfl⟩
  · intro llm withRag st sid hcc
    unfold evaluate_answer
    cases hf : storeFind st sid with
    | none => exact ⟨_, rfl⟩
    | some s =>
      dsimp only []
      by_cases hi : s.current_question_index < s.questions.length
      · rw [dif_pos hi]
        have hj : (if withRag then
            (pyJoinStrs (s.questions.get ⟨s.current_question_index, hi⟩).expected_concepts).map
              (fun _ => ())
          else Except.ok ()) = Except.ok () := by
          cases withRag with
          | false => rfl
          | true =>
            have h1 := hcc rfl
            simp only [current_concepts_ok, get_current_question, hf, hi, if_true,
              List.get?_eq_get hi] at h1
            simp only [if_true]
            cases hjo : pyJoinStrs (s.questions.get ⟨s.current_question_index, hi⟩).expected_concepts with
            | error e => rw [hjo] at h1; simp [Except.toBool, Except.isOk] at h1
            | ok l => rfl
        rw [hj]
        cases llm with
        | err e => exact ⟨_, rfl⟩
        | ok raw =>
          dsimp only []
          cases hp : parse_eval_score raw with
          | error e => exact ⟨_, rfl⟩
          | ok sc => exact ⟨_, rfl⟩
      · rw [dif_neg hi]
        exact ⟨_, rfl⟩

theorem agent_errors_never_propagate_witness :
    (true = true → current_concepts_ok [] "s" = true) ∧
    (∃ out, evaluate_answer (.err "x") true [] "s" = Except.ok out) ∧
    (∃ r, assess (.err "x") ["алгоритмы"] true = Except.ok r) := by
  refine ⟨fun _ => by decide, ?_, ?_⟩
  · exact agent_errors_never_propagate.2 (.err "x") true [] "s" (fun _ => by decide)
  · exact agent_errors_never_propagate.1 (.err "x") ["алгоритмы"] true

/-! ## Claim theorems: interview invariants -/

/-- C6: the index invariant and terminal behaviour of interview sessions:
start_interview and evaluate_answer preserve current_question_index ≤
number of questions; once the index equals the question count the session
is terminal (no current question, evaluate_answer returns the fixed
all-done score without mutating the store); and N successful evaluations
starting from a fresh session with N questions reach exactly that terminal
state, with a computable summary. -/
theorem interview_flow_invariant_and_termination :
    (∀ llm ragUsed topic level sid started st, storeWF st →
      storeWF (start_interview llm ragUsed topic level sid started st).2) ∧
    (∀ llm withRag st sid out, storeWF st →
      evaluate_answer llm withRag st sid = Except.ok out → storeWF out.2) ∧
    (∀ llm withRag st sid s, storeFind st sid = some s →
      s.current_question_index = s.questions.length →
      get_current_question st sid = none ∧
      evaluate_answer llm withRag st sid = Except.ok (allDoneScore, st)) ∧
    (∀ resps st sid s, storeFind st sid = some s →
      s.current_question_index = 0 →
      resps.length = s.questions.length →
      (∀ r ∈ resps, evalParseOk r = true) →
      ∃ s2, storeFind (run_interview resps st sid) sid = some s2 ∧
        s2.current_question_index = s2.questions.length ∧
        get_current_question (run_interview resps st sid) sid = none ∧
        get_interview_summary (run_interview resps st sid) sid ≠ SummaryOut.noSession) := by
  refine ⟨?_, ?_, ?_, ?_⟩
  · intro llm ragUsed topic level sid started st hwf
    unfold start_interview
    dsimp only []
    exact storeWF_storeSet st sid _ hwf (Nat.zero_le _)
  · intro llm withRag st sid out hwf hok
    unfold evaluate_answer at hok
    cases hf : storeFind st sid with
    | none => rw [hf] at hok; cases hok; exact hwf
    | some s =>
      rw [hf] at hok
      dsimp only [] at hok
      by_cases hi : s.current_question_index < s.questions.length
      · rw [dif_pos hi] at hok
        split at hok
        · cases hok
        · split at hok
          · cases hok; exact hwf
          · split at hok
            · cases hok; exact hwf
            · cases hok
              exact storeWF_storeSet st sid _ hwf (by simpa [sessionWF] using hi)
      · rw [dif_neg hi] at hok
        cases hok
        exact hwf
  · intro llm withRag st sid s hf hterm
    constructor
    · simp [get_current_question, hf, hterm]
    · unfold evaluate_answer
      rw [hf]
      dsimp only []
      rw [dif_neg (by omega)]
  · intro resps st sid s hf h0 hlen hall
    obtain ⟨s2, h2f, h2i, h2q⟩ :=
      run_interview_aux sid resps st s hf hall (by omega)
    have hidx : s2.current_question_index = s2.questions.length := by
      rw [h2i, h2q, h0, hlen]; omega
    refine ⟨s2, h2f, hidx, ?_, ?_⟩
    · simp [get_current_question, h2f, hidx]
    · intro hcon
      rw [get_interview_summary, h2f] at hcon
      dsimp only [] at hcon
      split at hcon <;> cases hcon

theorem interview_flow_witness :
    (storeFind sampleStore "s1" = some (start_interview (.err "boom") false "python" "junior" "s1" "t0" []).1 ∧
     (∀ r ∈ ([.ok sampleEvalReply, .ok sampleEvalReply] : List LLMResp), evalParseOk r = true)) ∧
    (∃ s2, storeFind (run_interview [.ok sampleEvalReply, .ok sampleEvalReply] sampleStore "s1") "s1" = some s2 ∧
       s2.current_question_index = s2.questions.length ∧
       get_current_question (run_interview [.ok sampleEvalReply, .ok sampleEvalReply] sampleStore "s1") "s1" = none ∧
       get_interview_summary (run_interview [.ok sampleEvalReply, .ok sampleEvalReply] sampleStore "s1") "s1" ≠ SummaryOut.noSession) := by
  refine ⟨⟨rfl, by decide⟩, ?_⟩
  exact interview_flow_invariant_and_termination.2.2.2
    [.ok sampleEvalReply, .ok sampleEvalReply] sampleStore "s1"
    (start_interview (.err "boom") false "python" "junior" "s1" "t0" []).1
    rfl (by decide) (by decide) (by decide)

/-! ## Claim theorems: interview summary -/

/-- C7: for a session with recorded scores the summary is the full record:
its average is the exact mean rounded half-to-even at one decimal (so ten
times it is an integer), the qualitative tier follows the fixed 80/60/40
thresholds on the mean, the strong/weak point lists are duplicate-free,
capped at five, and drawn from the recorded points; and end_interview
removes the session from the active-session store. -/
theorem interview_summary_spec (st : Store) (sid : String) (s : InterviewSession) (llm : LLMResp)
    (hf : storeFind st sid = some s) (hs : s.scores ≠ []) :
    (∃ r, get_interview_summary st sid = SummaryOut.full r ∧
      r.average_score = pyRound1 (meanScore s.scores) ∧
      (∃ k : ℤ, r.average_score = (k : ℚ) / 10) ∧
      (80 ≤ meanScore s.scores → r.performance_level = "Отлично") ∧
      (60 ≤ meanScore s.scores → meanScore s.scores < 80 → r.performance_level = "Хорошо") ∧
      (40 ≤ meanScore s.scores → meanScore s.scores < 60 →
        r.performance_level = "Удовлетворительно") ∧
      (meanScore s.scores < 40 → r.performance_level = "Требует улучшений") ∧
      r.strong_points.Nodup ∧ r.strong_points.length ≤ 5 ∧
      (∀ x ∈ r.strong_points, x ∈ collectPoints (fun sc => sc.strong_points) s.scores) ∧
      r.weak_points.Nodup ∧ r.weak_points.length ≤ 5 ∧
      (∀ x ∈ r.weak_points, x ∈ collectPoints (fun sc => sc.weak_points) s.scores)) ∧
    storeFind (end_interview llm st sid).store sid = none := by
  constructor
  · have hne : s.scores.isEmpty = false := by
      cases hsc : s.scores with
      | nil => exact absurd hsc hs
      | cons a t => rfl
    refine ⟨_, by rw [get_interview_summary, hf]; dsimp only []; rw [if_neg (by simp [hne])], ?_,
      ⟨roundHalfEvenInt (10 * (meanScore s.scores).num) (meanScore s.scores).den, ?_⟩,
      ?_, ?_, ?_, ?_, ?_, ?_, ?_, ?_, ?_, ?_⟩
    · rfl
    · show pyRound1 (meanScore s.scores) = _
      rw [pyRound1, Rat.mkRat_eq_div]
      norm_num
    · intro h80
      show performanceLevelOf (meanScore s.scores) = _
      rw [performanceLevelOf, if_pos h80]
    · intro h60 hlt
      show performanceLevelOf (meanScore s.scores) = _
      rw [performanceLevelOf, if_neg (by exact not_le.mpr hlt), if_pos h60]
    · intro h40 hlt
      show performanceLevelOf (meanScore s.scores) = _
      rw [performanceLevelOf, if_neg (by exact not_le.mpr (by linarith)),
        if_neg (by exact not_le.mpr hlt), if_pos h40]
    · intro hlt
      show performanceLevelOf (meanScore s.scores) = _
      rw [performanceLevelOf, if_neg (by exact not_le.mpr (by linarith)),
        if_neg (by exact not_le.mpr (by linarith)), if_neg (by exact not_le.mpr hlt)]
    · exact ((List.take_sublist _ _).nodup (List.nodup_dedup _))
    · exact List.length_take_le _ _
    · intro x hx
      exact List.dedup_subset _ (List.take_subset _ _ hx)
    · exact ((List.take_sublist _ _).nodup (List.nodup_dedup _))
    · exact List.length_take_le _ _
    · intro x hx
      exact List.dedup_subset _ (List.take_subset _ _ hx)
  · simpa [end_interview] using storeFind_erase st sid

theorem interview_summary_spec_witness :
    (storeFind sampleScoredStore "s7" = some sampleScoredSession ∧
     sampleScoredSession.scores ≠ []) ∧
    storeFind (end_interview (.err "x") sampleScoredStore "s7").store "s7" = none := by
  have h1 : storeFind sampleScoredStore "s7" = some sampleScoredSession := rfl
  have h2 : sampleScoredSession.scores ≠ [] := by
    simp [sampleScoredSession]
  exact ⟨⟨h1, h2⟩,
    (interview_summary_spec sampleScoredStore "s7" sampleScoredSession (.err "x") h1 h2).2⟩

end InterPrep
